import Mathlib

/-!
Verification of the flask-ocr application (src/app.py) against its
natural-language specification.

The embedding below translates the request-handling logic of `app.py`
into pure Lean functions:

* strings are Lean `String`s; Python `str.strip()` / `str.rstrip()` are
  modelled over the underlying character list (`pyStrip`, `pyRStrip`),
  stripping the ASCII whitespace characters that Python strips
  (space, tab, newline, carriage return, vertical tab, form feed);
* an uploaded file is a record of its declared filename, its measured
  byte size, and the outcome the external OCR engine would produce for
  it (`OcrOutcome`) — the engine itself is an opaque collaborator, so
  its per-file behaviour is data of the model;
* the POST branch of the `index` route (app.py lines 328-393) becomes
  `indexPost`, with `processLoop` embedding the per-file loop
  (lines 340-378); session writes, OCR-invocation order and log calls
  are returned explicitly as fields of the result;
* `download_single` (lines 395-411) is embedded with Python's `int()`
  parsing (`pyIntParse`) and Python list indexing, including negative
  indices (`pyListGet`); an uncaught exception is the `DlResponse.exc`
  constructor, which Flask surfaces as HTTP 500;
* `preprocess_image` (lines 37-47) acts on single-channel bitmaps
  (`GrayImage`, a row-major grid of intensities 0-255).
  `ImageOps.grayscale` is the identity on the values of a
  single-channel image, `ImageFilter.MedianFilter()` is the default
  3x3 median (Pillow expands the image by replicating edge pixels and
  takes the rank-4 element of the 9 sorted neighbourhood values), and
  `img.point(lambda x: 0 if x < 140 else 255, '1')` is the fixed
  threshold.
-/

/-- Python whitespace characters stripped by `str.strip()`
(space, tab, linefeed, return, vertical tab, form feed). -/
def pyIsSpace (c : Char) : Bool :=
  c == ' ' || c == '\t' || c == '\n' || c == '\r' ||
  c == Char.ofNat 11 || c == Char.ofNat 12

/-- Drop leading Python whitespace from a character list. -/
def stripLeft (l : List Char) : List Char := l.dropWhile pyIsSpace

/-- Drop trailing Python whitespace from a character list. -/
def stripRight (l : List Char) : List Char :=
  (l.reverse.dropWhile pyIsSpace).reverse

/-- Python `s.strip()`. -/
def pyStrip (s : String) : String := ⟨stripRight (stripLeft s.data)⟩

/-- Python `s.rstrip()`. -/
def pyRStrip (s : String) : String := ⟨stripRight s.data⟩

/-- Python `s.lower()` (ASCII case folding suffices for the model). -/
def pyLower (s : String) : String := ⟨s.data.map Char.toLower⟩

/-- `filename.rsplit('.', 1)[1]`: the substring after the last dot. -/
def extAfterLastDot (s : String) : String :=
  ⟨(s.data.reverse.takeWhile (fun c => c ≠ '.')).reverse⟩

/-- app.py line 26: `ALLOWED_EXTENSIONS = {'png','jpg','jpeg','gif','bmp','webp'}`
(a Python set; modelled as a list in the literal's order). -/
def ALLOWED_EXTENSIONS : List String := ["png", "jpg", "jpeg", "gif", "bmp", "webp"]

/-- `', '.join(ALLOWED_EXTENSIONS)` — Python set iteration order is
unspecified; the model fixes the literal order. -/
def allowedExtsJoined : String := String.intercalate ", " ALLOWED_EXTENSIONS

/-- app.py line 27: `MAX_FILE_SIZE = 10 * 1024 * 1024`. -/
def MAX_FILE_SIZE : Nat := 10 * 1024 * 1024

/-- app.py line 28: `MAX_FILES = 10`. -/
def MAX_FILES : Nat := 10

/-- app.py lines 30-35: `allowed_file`. -/
def allowed_file (filename : String) : Bool :=
  filename.data.contains '.' &&
    ALLOWED_EXTENSIONS.contains (pyLower (extAfterLastDot filename))

/-- app.py line 353: the measured-size check `file_size > MAX_FILE_SIZE`. -/
def size_check_rejects (file_size : Nat) : Bool :=
  MAX_FILE_SIZE < file_size

/-- Behaviour of `Image.open` + `preprocess_image` + `pytesseract` on one
file: either the engine returns raw text, or the call raises an
exception whose `str(e)` is `msg` (this covers both undecodable image
bytes and OCR-engine failures — both surface as exceptions of the same
`try` block, app.py lines 57-73). -/
inductive OcrOutcome where
  | ok (raw : String)
  | err (msg : String)
deriving DecidableEq, Repr

/-- One uploaded file: declared filename, measured byte size, and what
the external OCR call would do on its bytes. -/
structure UploadFile where
  filename : String
  size : Nat
  ocr : OcrOutcome
deriving DecidableEq, Repr

/-- One entry of the results list (the dict built at app.py
lines 361-378: keys `filename`, `text`, `size`). -/
structure ResultEntry where
  filename : String
  text : String
  size : Nat
deriving DecidableEq, Repr

/-- Logging level of `logger.info` / `logger.error`. -/
inductive LogLevel where
  | info
  | error
deriving DecidableEq, Repr

/-- One log call. -/
structure LogEvent where
  level : LogLevel
  msg : String
deriving DecidableEq, Repr

/-- app.py lines 49-73: `extract_text_from_image`. Returns the engine
text with `.strip()` applied, or propagates the exception; paired with
the log calls the function makes (line 68 logs the unstripped length,
line 72 logs the failure cause at error level). -/
def extract_text_from_image (f : UploadFile) :
    Except String String × List LogEvent :=
  match f.ocr with
  | .ok raw =>
      (.ok (pyStrip raw),
        [⟨.info, "Successfully extracted text from image: " ++
            toString raw.length ++ " characters"⟩])
  | .err m => (.error m, [⟨.error, "OCR processing failed: " ++ m⟩])

/-- app.py line 345. -/
def invalidTypeMsg (filename : String) : String :=
  "Invalid file type for " ++ filename ++ ". Please upload: " ++ allowedExtsJoined

/-- app.py line 354. -/
def oversizeMsg (filename : String) : String :=
  "File " ++ filename ++ " exceeds 10MB limit."

/-- app.py line 369. -/
def noTextMsg : String := "No text could be extracted from this image."

/-- app.py line 376: `f"Error processing image: {str(e)}"`. -/
def errEntryText (cause : String) : String :=
  "Error processing image: " ++ cause

/-- app.py line 381. -/
def noneExtractedMsg : String :=
  "No text could be extracted from any of the uploaded images."

/-- app.py line 385 (the outer `except` of the upload loop; reachable
only for exceptions raised outside `extract_text_from_image`'s
callers' inner `try`, e.g. from `file.seek`). -/
def genericFailureMsg : String :=
  "Failed to process the images. Please ensure they are valid image files."

/-- app.py line 334. -/
def selectFileMsg : String := "Please select at least one file to upload."

/-- app.py line 336: `f"Maximum {MAX_FILES} files allowed per upload."`. -/
def maxFilesMsg : String :=
  "Maximum " ++ toString MAX_FILES ++ " files allowed per upload."

/-- Observable outcome of the per-file loop, app.py lines 339-378:
the accumulated `results` list, the `error` variable, the filenames for
which `extract_text_from_image` was invoked (in call order), and the
log calls made. -/
structure BatchOutcome where
  results : List ResultEntry
  error : Option String
  attempts : List String
  logs : List LogEvent
deriving DecidableEq, Repr

/-- app.py lines 340-378: the `for file in files:` loop, carrying the
`results` accumulator. `continue` on an empty filename; `break` with an
error on a failed extension or size check (note: the accumulator is
kept, not discarded); otherwise one entry is appended per file — real
text if the stripped OCR output is non-empty (`if extracted_text:`),
the no-text placeholder if it is empty, and the error placeholder
embedding `str(e)` if the OCR call raised. -/
def processLoop : List UploadFile → List ResultEntry → BatchOutcome
  | [], acc => ⟨acc, none, [], []⟩
  | f :: rest, acc =>
    if f.filename = "" then processLoop rest acc
    else if ¬ allowed_file f.filename then
      ⟨acc, some (invalidTypeMsg f.filename), [], []⟩
    else if size_check_rejects f.size then
      ⟨acc, some (oversizeMsg f.filename), [], []⟩
    else
      match extract_text_from_image f with
      | (.ok t, lg) =>
          let entry : ResultEntry :=
            if t ≠ "" then ⟨f.filename, t, f.size⟩
            else ⟨f.filename, noTextMsg, f.size⟩
          let out := processLoop rest (acc ++ [entry])
          ⟨out.results, out.error, f.filename :: out.attempts, lg ++ out.logs⟩
      | (.error m, lg) =>
          let out := processLoop rest (acc ++ [⟨f.filename, errEntryText m, f.size⟩])
          ⟨out.results, out.error, f.filename :: out.attempts,
            lg ++ [⟨.error, "Error processing " ++ f.filename ++ ": " ++ m⟩]
              ++ out.logs⟩

/-- Observable outcome of one POST to `/` (app.py lines 328-393):
the rendered `results` and `error`, the session write
(`session['results'] = results` happens iff `results` is non-empty,
line 388; `none` = session untouched), the HTTP status of the normal
return path, the OCR attempts and the logs. -/
structure IndexResponse where
  results : List ResultEntry
  error : Option String
  stored : Option (List ResultEntry)
  status : Nat
  attempts : List String
  logs : List LogEvent
deriving DecidableEq, Repr

/-- app.py lines 328-393: the POST branch of `index`.
First the presence check (line 333), then the count ceiling
(line 335), then the per-file loop; after the loop the batch-level
"nothing extracted" error is set only if no error was set and the
results list is empty (line 380). -/
def indexPost (files : List UploadFile) : IndexResponse :=
  if files = [] ∨ ∀ f ∈ files, f.filename = "" then
    ⟨[], some selectFileMsg, none, 200, [], []⟩
  else if MAX_FILES < files.length then
    ⟨[], some maxFilesMsg, none, 200, [], []⟩
  else
    let out := processLoop files []
    let err : Option String :=
      if out.error = none ∧ out.results = [] then some noneExtractedMsg
      else out.error
    ⟨out.results, err,
      if out.results = [] then none else some out.results,
      200, out.attempts, out.logs⟩

/-- Python `int(s)`: optional surrounding whitespace, an optional sign,
then one or more digits; anything else raises `ValueError`
(modelled as `none`). -/
def pyIntParse (s : String) : Option Int :=
  let l := stripRight (stripLeft s.data)
  let (sign, digits) : Int × List Char :=
    match l with
    | '-' :: rest => (-1, rest)
    | '+' :: rest => (1, rest)
    | _ => (1, l)
  if digits ≠ [] ∧ digits.all Char.isDigit then
    some (sign * (digits.foldl (fun a c => a * 10 + (c.toNat - 48)) 0 : Nat))
  else none

/-- Python list indexing `l[i]`: non-negative indices from the front,
negative indices from the back, `none` = `IndexError`. -/
def pyListGet (l : List ResultEntry) (i : Int) : Option ResultEntry :=
  if 0 ≤ i then l.get? i.toNat
  else if 0 ≤ i + l.length then l.get? (i + l.length).toNat
  else none

/-- Response of the `/download-single` handler: the 404 page, a
plain-text attachment (filename, body), or an uncaught exception —
which Flask's error handler surfaces as HTTP 500. -/
inductive DlResponse where
  | notFound
  | attachment (filename : String) (text : String)
  | exc (name : String)
deriving DecidableEq, Repr

/-- app.py lines 399-411 after `file_index` has been parsed: the guard
`if not results or file_index >= len(results)` returns 404, otherwise
`results[file_index]` is accessed with Python indexing semantics. -/
def download_single_core (i : Int) (results : List ResultEntry) : DlResponse :=
  if results = [] ∨ (results.length : Int) ≤ i then .notFound
  else
    match pyListGet results i with
    | some r => .attachment ("extracted_text_" ++ r.filename ++ ".txt") r.text
    | none => .exc "IndexError"

/-- app.py lines 395-411: `download_single`. The form value is
`request.form.get('file_index', 0)` — absent field means the integer
default `0`; a present field is a string fed to `int(...)`, which
raises `ValueError` on a non-integer literal. -/
def download_single (formFileIndex : Option String)
    (sessionResults : List ResultEntry) : DlResponse :=
  match formFileIndex with
  | none => download_single_core 0 sessionResults
  | some s =>
      match pyIntParse s with
      | none => .exc "ValueError"
      | some i => download_single_core i sessionResults

/-- HTTP status of a `/download-single` response (Flask maps an
uncaught exception to 500 via the registered 500 handler). -/
def dlStatus : DlResponse → Nat
  | .notFound => 404
  | .attachment _ _ => 200
  | .exc _ => 500

/-- A single-channel bitmap: row-major grid of intensities 0-255. -/
abbrev GrayImage := List (List Nat)

/-- Pixel access with edge replication (Pillow's rank filters expand
the image by duplicating edge pixels before filtering). -/
def clampGet (g : GrayImage) (i j : Int) : Nat :=
  let h : Int := g.length
  let row := g.getD (max 0 (min i (h - 1))).toNat []
  let w : Int := row.length
  row.getD (max 0 (min j (w - 1))).toNat 0

/-- The 3x3 neighbourhood of pixel `(i, j)`. -/
def neighborhood9 (g : GrayImage) (i j : Int) : List Nat :=
  [clampGet g (i-1) (j-1), clampGet g (i-1) j, clampGet g (i-1) (j+1),
   clampGet g i (j-1), clampGet g i j, clampGet g i (j+1),
   clampGet g (i+1) (j-1), clampGet g (i+1) j, clampGet g (i+1) (j+1)]

/-- Rank-4 element of the 9 sorted values: the median
(`MedianFilter(size)` is `RankFilter(size, size * size // 2)`). -/
def median9 (l : List Nat) : Nat :=
  (List.insertionSort (· ≤ ·) l).getD 4 0

/-- app.py line 45: `img.filter(ImageFilter.MedianFilter())` —
the default 3x3 median filter. -/
def medianFilterImg (g : GrayImage) : GrayImage :=
  (List.range g.length).map fun i =>
    (List.range (g.getD i []).length).map fun j =>
      median9 (neighborhood9 g (i : Int) (j : Int))

/-- app.py line 46: the fixed-threshold binarization
`img.point(lambda x: 0 if x < 140 else 255, '1')`. -/
def thresholdPx (x : Nat) : Nat := if x < 140 then 0 else 255

/-- Apply the threshold to every pixel. -/
def pointThreshold (g : GrayImage) : GrayImage :=
  g.map (fun row => row.map thresholdPx)

/-- app.py line 44: `ImageOps.grayscale` — on a single-channel image
('L' or '1' mode) the pixel values are unchanged, so on the
single-channel model it is the identity. -/
def grayscaleL (g : GrayImage) : GrayImage := g

/-- app.py lines 37-47: `preprocess_image` —
grayscale, 3x3 median filter, threshold-140 binarization. -/
def preprocess_image (g : GrayImage) : GrayImage :=
  pointThreshold (medianFilterImg (grayscaleL g))

/-- Every pixel is pure black or pure white. -/
def isBinaryImg (g : GrayImage) : Bool :=
  g.all (fun row => row.all (fun v => v == 0 || v == 255))

/-- A per-file validation predicate bundling the checks of app.py
lines 341-355: non-empty filename, allowed extension, size within the
ceiling. -/
def validFile (f : UploadFile) : Prop :=
  f.filename ≠ "" ∧ allowed_file f.filename = true ∧ f.size ≤ MAX_FILE_SIZE

instance (f : UploadFile) : Decidable (validFile f) := by
  unfold validFile; infer_instance

/-- The OCR outcome of `f` is a returned (possibly whitespace-only)
text that strips to the empty string. -/
def blankOk (f : UploadFile) : Bool :=
  match f.ocr with
  | .ok raw => pyStrip raw == ""
  | .err _ => false

/-- For an `err` outcome: the exception message is non-empty with no
trailing whitespace (so that the error placeholder text is trimmed). -/
def errCauseOk (f : UploadFile) : Bool :=
  match f.ocr with
  | .err m => !(m == "") && (pyRStrip m == m)
  | .ok _ => true

/-- The one result entry the loop appends for a file that passes both
per-file validation checks (app.py lines 357-378): the stripped
recognized text when it is non-empty, the no-text placeholder when it
strips to empty, and the error placeholder embedding `str(e)` when the
OCR call raised. -/
def entryFor (f : UploadFile) : ResultEntry :=
  match f.ocr with
  | .ok raw =>
      if pyStrip raw ≠ "" then ⟨f.filename, pyStrip raw, f.size⟩
      else ⟨f.filename, noTextMsg, f.size⟩
  | .err m => ⟨f.filename, errEntryText m, f.size⟩

/-! ### Concrete data used in counterexamples and witnesses -/

/-- Prefix of a batch whose third file fails the size check: one valid
text-yielding file. -/
def c1wPre : List UploadFile := [⟨"g.png", 2, .ok "hi"⟩]

/-- A file with an allowed extension whose measured size exceeds the
10 MiB ceiling. -/
def c1wBad : UploadFile := ⟨"big.png", 99999999, .ok "x"⟩

/-- A file placed after the offending one (never processed). -/
def c1wRest : List UploadFile := [⟨"z.png", 1, .ok "z"⟩]

/-- A valid upload whose OCR yields the text `hello`. -/
def exGood : UploadFile := ⟨"good.png", 4, .ok "hello"⟩

/-- An upload whose extension `txt` is outside the allow-list. -/
def exBadExt : UploadFile := ⟨"bad.txt", 3, .ok "x"⟩

/-- A valid upload whose OCR output strips to the empty string. -/
def exBlank : UploadFile := ⟨"blank.png", 5, .ok "   "⟩

/-- A valid upload whose bytes cannot be decoded: `Image.open` raises
with `str(e) = "cannot identify image file"`. -/
def exDecode : UploadFile := ⟨"broken.png", 7, .err "cannot identify image file"⟩

/-- A valid upload whose OCR call raises with a cause that has a
trailing space. -/
def exTrailWS : UploadFile := ⟨"ws.png", 3, .err "boom "⟩

/-- Three stored results, as left by a successful 3-file batch. -/
def exResults3 : List ResultEntry :=
  [⟨"a.png", "t1", 1⟩, ⟨"b.png", "t2", 2⟩, ⟨"c.png", "t3", 3⟩]

/-- A pure black/white image: five rows of vertical stripes
`[0, 255, 0, 255, 0]`. -/
def stripesImg : GrayImage := List.replicate 5 [0, 255, 0, 255, 0]

/-! ### Generic lemmas about whitespace stripping -/

theorem dropWhile_cons_neg {p : Char → Bool} {a : Char} {l : List Char}
    (h : p a = false) : (a :: l).dropWhile p = a :: l := by
  simp [List.dropWhile_cons, h]

theorem head_false_of_dropWhile_fix {p : Char → Bool} {a : Char} {l : List Char}
    (h : (a :: l).dropWhile p = a :: l) : p a = false := by
  by_cases hp : p a
  · exfalso
    rw [List.dropWhile_cons, if_pos hp] at h
    have h1 : (l.dropWhile p).length = (a :: l).length := congrArg List.length h
    have h2 : (l.dropWhile p).length ≤ l.length :=
      (List.dropWhile_sublist p).length_le
    simp at h1
    omega
  · simpa using hp

theorem dropWhile_idem (p : Char → Bool) (l : List Char) :
    (l.dropWhile p).dropWhile p = l.dropWhile p := by
  induction l with
  | nil => rfl
  | cons a t ih =>
    by_cases hp : p a
    · simp [List.dropWhile_cons, hp, ih]
    · simp [List.dropWhile_cons, hp]

theorem dropWhile_fix_append {p : Char → Bool} {w r : List Char}
    (h : (w ++ r).dropWhile p = w ++ r) : w.dropWhile p = w := by
  cases w with
  | nil => rfl
  | cons a t =>
    have h' : (a :: (t ++ r)).dropWhile p = a :: (t ++ r) := h
    have ha : p a = false := head_false_of_dropWhile_fix h'
    exact dropWhile_cons_neg ha

theorem dropWhile_fix_append_of_fix {p : Char → Bool} {w : List Char}
    (r : List Char) (hw : w ≠ []) (h : w.dropWhile p = w) :
    (w ++ r).dropWhile p = w ++ r := by
  cases w with
  | nil => exact absurd rfl hw
  | cons a t =>
    have ha : p a = false := head_false_of_dropWhile_fix h
    exact dropWhile_cons_neg (l := t ++ r) ha

theorem stripLeft_idem (l : List Char) : stripLeft (stripLeft l) = stripLeft l :=
  dropWhile_idem pyIsSpace l

theorem stripRight_idem (l : List Char) :
    stripRight (stripRight l) = stripRight l := by
  unfold stripRight
  rw [List.reverse_reverse, dropWhile_idem]

theorem stripRight_as_append (l : List Char) :
    l = stripRight l ++ (l.reverse.takeWhile pyIsSpace).reverse := by
  unfold stripRight
  have h := List.takeWhile_append_dropWhile (p := pyIsSpace) (l := l.reverse)
  have h2 := congrArg List.reverse h
  rw [List.reverse_append, List.reverse_reverse] at h2
  exact h2.symm

theorem stripLeft_stripRight_of_fix {l : List Char}
    (h : stripLeft l = l) : stripLeft (stripRight l) = stripRight l := by
  have hd : l = stripRight l ++ (l.reverse.takeWhile pyIsSpace).reverse :=
    stripRight_as_append l
  have h' : (stripRight l ++ (l.reverse.takeWhile pyIsSpace).reverse).dropWhile
      pyIsSpace = stripRight l ++ (l.reverse.takeWhile pyIsSpace).reverse := by
    rw [← hd]; exact h
  exact dropWhile_fix_append h'

theorem stripLR_trimmed (l : List Char) :
    stripLeft (stripRight (stripLeft l)) = stripRight (stripLeft l) ∧
      stripRight (stripRight (stripLeft l)) = stripRight (stripLeft l) :=
  ⟨stripLeft_stripRight_of_fix (stripLeft_idem l), stripRight_idem (stripLeft l)⟩

theorem pyStrip_idem (s : String) : pyStrip (pyStrip s) = pyStrip s := by
  unfold pyStrip
  have h := stripLR_trimmed s.data
  exact congrArg String.mk (by rw [h.1, h.2])

theorem pyStrip_of_trimmed {d : List Char} (h1 : stripLeft d = d)
    (h2 : stripRight d = d) : pyStrip ⟨d⟩ = ⟨d⟩ := by
  unfold pyStrip
  exact congrArg String.mk (by rw [show (String.mk d).data = d from rfl, h1, h2])

theorem stripRight_fix_reverse {d : List Char} (h : stripRight d = d) :
    d.reverse.dropWhile pyIsSpace = d.reverse := by
  have := congrArg List.reverse h
  unfold stripRight at this
  rw [List.reverse_reverse] at this
  exact this

/-- The error placeholder `"Error processing image: " ++ m` is trimmed
whenever the cause `m` is non-empty with no trailing whitespace. -/
theorem errEntryText_trimmed {m : String} (hne : m ≠ "")
    (hrs : pyRStrip m = m) : pyStrip (errEntryText m) = errEntryText m := by
  have hdm : m.data ≠ [] := by
    intro h
    exact hne (by cases m with | mk d => simpa using congrArg String.mk h)
  have hdata : (errEntryText m).data = "Error processing image: ".data ++ m.data := rfl
  have hsr : stripRight m.data = m.data := by
    have : (pyRStrip m).data = m.data := by rw [hrs]
    simpa [pyRStrip] using this
  have hL : stripLeft ("Error processing image: ".data ++ m.data) =
      "Error processing image: ".data ++ m.data := by
    unfold stripLeft
    apply dropWhile_fix_append_of_fix
    · decide
    · decide
  have hR : stripRight ("Error processing image: ".data ++ m.data) =
      "Error processing image: ".data ++ m.data := by
    unfold stripRight
    rw [List.reverse_append]
    have hrev : m.data.reverse.dropWhile pyIsSpace = m.data.reverse :=
      stripRight_fix_reverse hsr
    have hrne : m.data.reverse ≠ [] := by
      simpa using hdm
    rw [dropWhile_fix_append_of_fix _ hrne hrev, List.reverse_append,
      List.reverse_reverse, List.reverse_reverse]
  cases hEq : errEntryText m with
  | mk d =>
    have hd : d = "Error processing image: ".data ++ m.data := by
      have := congrArg String.data hEq
      rw [hdata] at this
      exact this.symm
    subst hd
    exact pyStrip_of_trimmed hL hR

/-! ### Step lemmas for the per-file loop -/

theorem processLoop_skip {f : UploadFile} (rest : List UploadFile)
    (acc : List ResultEntry) (h : f.filename = "") :
    processLoop (f :: rest) acc = processLoop rest acc := by
  simp [processLoop, h]

theorem processLoop_invalid {f : UploadFile} (rest : List UploadFile)
    (acc : List ResultEntry) (h1 : f.filename ≠ "")
    (h2 : allowed_file f.filename = false) :
    processLoop (f :: rest) acc =
      ⟨acc, some (invalidTypeMsg f.filename), [], []⟩ := by
  simp [processLoop, h1, h2]

theorem processLoop_oversize {f : UploadFile} (rest : List UploadFile)
    (acc : List ResultEntry) (h1 : f.filename ≠ "")
    (h2 : allowed_file f.filename = true)
    (h3 : size_check_rejects f.size = true) :
    processLoop (f :: rest) acc =
      ⟨acc, some (oversizeMsg f.filename), [], []⟩ := by
  simp [processLoop, h1, h2, h3]

theorem processLoop_ok_text {f : UploadFile} (rest : List UploadFile)
    (acc : List ResultEntry) {raw : String} (h1 : f.filename ≠ "")
    (h2 : allowed_file f.filename = true)
    (h3 : size_check_rejects f.size = false)
    (h4 : f.ocr = .ok raw) (h5 : pyStrip raw ≠ "") :
    processLoop (f :: rest) acc =
      ⟨(processLoop rest (acc ++ [⟨f.filename, pyStrip raw, f.size⟩])).results,
       (processLoop rest (acc ++ [⟨f.filename, pyStrip raw, f.size⟩])).error,
       f.filename ::
         (processLoop rest (acc ++ [⟨f.filename, pyStrip raw, f.size⟩])).attempts,
       [⟨.info, "Successfully extracted text from image: " ++
           toString raw.length ++ " characters"⟩] ++
         (processLoop rest (acc ++ [⟨f.filename, pyStrip raw, f.size⟩])).logs⟩ := by
  simp [processLoop, h1, h2, h3, extract_text_from_image, h4, h5]

theorem processLoop_ok_blank {f : UploadFile} (rest : List UploadFile)
    (acc : List ResultEntry) {raw : String} (h1 : f.filename ≠ "")
    (h2 : allowed_file f.filename = true)
    (h3 : size_check_rejects f.size = false)
    (h4 : f.ocr = .ok raw) (h5 : pyStrip raw = "") :
    processLoop (f :: rest) acc =
      ⟨(processLoop rest (acc ++ [⟨f.filename, noTextMsg, f.size⟩])).results,
       (processLoop rest (acc ++ [⟨f.filename, noTextMsg, f.size⟩])).error,
       f.filename ::
         (processLoop rest (acc ++ [⟨f.filename, noTextMsg, f.size⟩])).attempts,
       [⟨.info, "Successfully extracted text from image: " ++
           toString raw.length ++ " characters"⟩] ++
         (processLoop rest (acc ++ [⟨f.filename, noTextMsg, f.size⟩])).logs⟩ := by
  simp [processLoop, h1, h2, h3, extract_text_from_image, h4, h5]

theorem processLoop_err {f : UploadFile} (rest : List UploadFile)
    (acc : List ResultEntry) {m : String} (h1 : f.filename ≠ "")
    (h2 : allowed_file f.filename = true)
    (h3 : size_check_rejects f.size = false)
    (h4 : f.ocr = .err m) :
    processLoop (f :: rest) acc =
      ⟨(processLoop rest (acc ++ [⟨f.filename, errEntryText m, f.size⟩])).results,
       (processLoop rest (acc ++ [⟨f.filename, errEntryText m, f.size⟩])).error,
       f.filename ::
         (processLoop rest (acc ++ [⟨f.filename, errEntryText m, f.size⟩])).attempts,
       [⟨.error, "OCR processing failed: " ++ m⟩,
        ⟨.error, "Error processing " ++ f.filename ++ ": " ++ m⟩] ++
         (processLoop rest (acc ++ [⟨f.filename, errEntryText m, f.size⟩])).logs⟩ := by
  simp [processLoop, h1, h2, h3, extract_text_from_image, h4]

theorem indexPost_normal {files : List UploadFile}
    (h1 : ¬ (files = [] ∨ ∀ f ∈ files, f.filename = ""))
    (h2 : ¬ MAX_FILES < files.length) :
    indexPost files =
      ⟨(processLoop files []).results,
       (if (processLoop files []).error = none ∧ (processLoop files []).results = []
        then some noneExtractedMsg else (processLoop files []).error),
       (if (processLoop files []).results = [] then none
        else some (processLoop files []).results),
       200, (processLoop files []).attempts, (processLoop files []).logs⟩ := by
  rw [indexPost, if_neg h1, if_neg h2]

/-! ### Global lemmas about the loop -/

theorem processLoop_all_valid : ∀ (files : List UploadFile) (acc : List ResultEntry),
    (∀ f ∈ files, validFile f) →
    (processLoop files acc).results.length = acc.length + files.length ∧
      (processLoop files acc).error = none ∧
      (processLoop files acc).attempts = files.map (fun f => f.filename) := by
  intro files
  induction files with
  | nil => intro acc _; simp [processLoop]
  | cons f rest ih =>
    intro acc h
    obtain ⟨hn, he, hs⟩ := h f (List.mem_cons_self f rest)
    have hrest : ∀ g ∈ rest, validFile g := fun g hg => h g (List.mem_cons_of_mem f hg)
    have hsz : size_check_rejects f.size = false := by
      simp [size_check_rejects]; omega
    cases hocr : f.ocr with
    | ok raw =>
      by_cases hblank : pyStrip raw = ""
      · rw [processLoop_ok_blank rest acc hn he hsz hocr hblank]
        obtain ⟨r1, r2, r3⟩ := ih (acc ++ [⟨f.filename, noTextMsg, f.size⟩]) hrest
        refine ⟨?_, r2, ?_⟩
        · show (processLoop rest (acc ++ [⟨f.filename, noTextMsg, f.size⟩])).results.length = _
          rw [r1]; simp; omega
        · show f.filename :: (processLoop rest (acc ++ [⟨f.filename, noTextMsg, f.size⟩])).attempts = _
          rw [r3]; simp
      · rw [processLoop_ok_text rest acc hn he hsz hocr hblank]
        obtain ⟨r1, r2, r3⟩ := ih (acc ++ [⟨f.filename, pyStrip raw, f.size⟩]) hrest
        refine ⟨?_, r2, ?_⟩
        · show (processLoop rest (acc ++ [⟨f.filename, pyStrip raw, f.size⟩])).results.length = _
          rw [r1]; simp; omega
        · show f.filename :: (processLoop rest (acc ++ [⟨f.filename, pyStrip raw, f.size⟩])).attempts = _
          rw [r3]; simp
    | err m =>
      rw [processLoop_err rest acc hn he hsz hocr]
      obtain ⟨r1, r2, r3⟩ := ih (acc ++ [⟨f.filename, errEntryText m, f.size⟩]) hrest
      refine ⟨?_, r2, ?_⟩
      · show (processLoop rest (acc ++ [⟨f.filename, errEntryText m, f.size⟩])).results.length = _
        rw [r1]; simp; omega
      · show f.filename :: (processLoop rest (acc ++ [⟨f.filename, errEntryText m, f.size⟩])).attempts = _
        rw [r3]; simp

theorem processLoop_all_blank : ∀ (files : List UploadFile) (acc : List ResultEntry),
    (∀ f ∈ files, validFile f ∧ blankOk f = true) →
    (processLoop files acc).results =
        acc ++ files.map (fun f => (⟨f.filename, noTextMsg, f.size⟩ : ResultEntry)) ∧
      (processLoop files acc).error = none ∧
      (processLoop files acc).attempts = files.map (fun f => f.filename) := by
  intro files
  induction files with
  | nil => intro acc _; simp [processLoop]
  | cons f rest ih =>
    intro acc h
    obtain ⟨⟨hn, he, hs⟩, hbl⟩ := h f (List.mem_cons_self f rest)
    have hrest : ∀ g ∈ rest, validFile g ∧ blankOk g = true :=
      fun g hg => h g (List.mem_cons_of_mem f hg)
    have hsz : size_check_rejects f.size = false := by
      simp [size_check_rejects]; omega
    cases hocr : f.ocr with
    | err m => simp [blankOk, hocr] at hbl
    | ok raw =>
    have hblank : pyStrip raw = "" := by simpa [blankOk, hocr] using hbl
    rw [processLoop_ok_blank rest acc hn he hsz hocr hblank]
    obtain ⟨r1, r2, r3⟩ := ih (acc ++ [⟨f.filename, noTextMsg, f.size⟩]) hrest
    refine ⟨?_, r2, ?_⟩
    · show (processLoop rest (acc ++ [⟨f.filename, noTextMsg, f.size⟩])).results = _
      rw [r1]; simp
    · show f.filename :: (processLoop rest (acc ++ [⟨f.filename, noTextMsg, f.size⟩])).attempts = _
      rw [r3]; simp

theorem processLoop_trimmed : ∀ (files : List UploadFile) (acc : List ResultEntry),
    (∀ f ∈ files, errCauseOk f = true) →
    (∀ e ∈ acc, pyStrip e.text = e.text) →
    ∀ e ∈ (processLoop files acc).results, pyStrip e.text = e.text := by
  intro files
  induction files with
  | nil => intro acc _ hacc; simpa [processLoop] using hacc
  | cons f rest ih =>
    intro acc hf hacc
    have hfr : ∀ g ∈ rest, errCauseOk g = true :=
      fun g hg => hf g (List.mem_cons_of_mem f hg)
    by_cases hn : f.filename = ""
    · rw [processLoop_skip rest acc hn]; exact ih acc hfr hacc
    · cases hA : allowed_file f.filename with
      | false =>
        rw [processLoop_invalid rest acc hn hA]
        exact hacc
      | true =>
        cases hz : size_check_rejects f.size with
        | true =>
          rw [processLoop_oversize rest acc hn hA hz]
          exact hacc
        | false =>
          cases hocr : f.ocr with
          | ok raw =>
            by_cases hblank : pyStrip raw = ""
            · rw [processLoop_ok_blank rest acc hn hA hz hocr hblank]
              refine ih (acc ++ [⟨f.filename, noTextMsg, f.size⟩]) hfr ?_
              intro e he
              rcases List.mem_append.mp he with h1 | h2
              · exact hacc e h1
              · have : e = (⟨f.filename, noTextMsg, f.size⟩ : ResultEntry) := by
                  simpa using h2
                rw [this]
                show pyStrip noTextMsg = noTextMsg
                decide
            · rw [processLoop_ok_text rest acc hn hA hz hocr hblank]
              refine ih (acc ++ [⟨f.filename, pyStrip raw, f.size⟩]) hfr ?_
              intro e he
              rcases List.mem_append.mp he with h1 | h2
              · exact hacc e h1
              · have : e = (⟨f.filename, pyStrip raw, f.size⟩ : ResultEntry) := by
                  simpa using h2
                rw [this]
                show pyStrip (pyStrip raw) = pyStrip raw
                exact pyStrip_idem raw
          | err m =>
            rw [processLoop_err rest acc hn hA hz hocr]
            refine ih (acc ++ [⟨f.filename, errEntryText m, f.size⟩]) hfr ?_
            intro e he
            rcases List.mem_append.mp he with h1 | h2
            · exact hacc e h1
            · have he2 : e = (⟨f.filename, errEntryText m, f.size⟩ : ResultEntry) := by
                simpa using h2
              have hco := hf f (List.mem_cons_self f rest)
              rw [errCauseOk, hocr] at hco
              simp at hco
              rw [he2]
              show pyStrip (errEntryText m) = errEntryText m
              exact errEntryText_trimmed hco.1 hco.2

theorem processLoop_abort : ∀ (pre : List UploadFile) (bad : UploadFile)
    (rest : List UploadFile) (acc : List ResultEntry),
    (∀ f ∈ pre, f.filename ≠ "" →
      allowed_file f.filename = true ∧ f.size ≤ MAX_FILE_SIZE) →
    bad.filename ≠ "" →
    (allowed_file bad.filename = false ∨ MAX_FILE_SIZE < bad.size) →
    (processLoop (pre ++ bad :: rest) acc).results =
        acc ++ (pre.filter (fun f => f.filename ≠ "")).map entryFor ∧
      (processLoop (pre ++ bad :: rest) acc).error =
        some (if allowed_file bad.filename = true then oversizeMsg bad.filename
              else invalidTypeMsg bad.filename) ∧
      (processLoop (pre ++ bad :: rest) acc).attempts =
        (pre.filter (fun f => f.filename ≠ "")).map (fun f => f.filename) := by
  intro pre
  induction pre with
  | nil =>
    intro bad rest acc _ hb1 hb2
    simp only [List.nil_append, List.filter_nil, List.map_nil, List.append_nil]
    cases hA : allowed_file bad.filename with
    | false =>
      rw [processLoop_invalid rest acc hb1 hA]
      refine ⟨rfl, ?_, rfl⟩
      simp [hA]
    | true =>
      have hsz : size_check_rejects bad.size = true := by
        rcases hb2 with h | h
        · rw [hA] at h; cases h
        · simp [size_check_rejects]; omega
      rw [processLoop_oversize rest acc hb1 hA hsz]
      refine ⟨rfl, ?_, rfl⟩
      simp [hA]
  | cons f pre' ih =>
    intro bad rest acc hpre hb1 hb2
    have hpre' : ∀ g ∈ pre', g.filename ≠ "" →
        allowed_file g.filename = true ∧ g.size ≤ MAX_FILE_SIZE :=
      fun g hg => hpre g (List.mem_cons_of_mem f hg)
    simp only [List.cons_append]
    by_cases hn : f.filename = ""
    · rw [processLoop_skip (pre' ++ bad :: rest) acc hn]
      have := ih bad rest acc hpre' hb1 hb2
      simpa [List.filter_cons, hn] using this
    · obtain ⟨hA, hS⟩ := hpre f (List.mem_cons_self _ _) hn
      have hsz : size_check_rejects f.size = false := by
        simp [size_check_rejects]; omega
      cases hocr : f.ocr with
      | ok raw =>
        by_cases hblank : pyStrip raw = ""
        · rw [processLoop_ok_blank (pre' ++ bad :: rest) acc hn hA hsz hocr hblank]
          have hef : entryFor f = ⟨f.filename, noTextMsg, f.size⟩ := by
            simp [entryFor, hocr, hblank]
          obtain ⟨r1, r2, r3⟩ :=
            ih bad rest (acc ++ [⟨f.filename, noTextMsg, f.size⟩]) hpre' hb1 hb2
          refine ⟨?_, r2, ?_⟩
          · show (processLoop (pre' ++ bad :: rest)
                (acc ++ [⟨f.filename, noTextMsg, f.size⟩])).results = _
            rw [r1, List.filter_cons]
            simp [hn, hef]
          · show f.filename :: (processLoop (pre' ++ bad :: rest)
                (acc ++ [⟨f.filename, noTextMsg, f.size⟩])).attempts = _
            rw [r3, List.filter_cons]
            simp [hn]
        · rw [processLoop_ok_text (pre' ++ bad :: rest) acc hn hA hsz hocr hblank]
          have hef : entryFor f = ⟨f.filename, pyStrip raw, f.size⟩ := by
            simp [entryFor, hocr, hblank]
          obtain ⟨r1, r2, r3⟩ :=
            ih bad rest (acc ++ [⟨f.filename, pyStrip raw, f.size⟩]) hpre' hb1 hb2
          refine ⟨?_, r2, ?_⟩
          · show (processLoop (pre' ++ bad :: rest)
                (acc ++ [⟨f.filename, pyStrip raw, f.size⟩])).results = _
            rw [r1, List.filter_cons]
            simp [hn, hef]
          · show f.filename :: (processLoop (pre' ++ bad :: rest)
                (acc ++ [⟨f.filename, pyStrip raw, f.size⟩])).attempts = _
            rw [r3, List.filter_cons]
            simp [hn]
      | err m =>
        rw [processLoop_err (pre' ++ bad :: rest) acc hn hA hsz hocr]
        have hef : entryFor f = ⟨f.filename, errEntryText m, f.size⟩ := by
          simp [entryFor, hocr]
        obtain ⟨r1, r2, r3⟩ :=
          ih bad rest (acc ++ [⟨f.filename, errEntryText m, f.size⟩]) hpre' hb1 hb2
        refine ⟨?_, r2, ?_⟩
        · show (processLoop (pre' ++ bad :: rest)
              (acc ++ [⟨f.filename, errEntryText m, f.size⟩])).results = _
          rw [r1, List.filter_cons]
          simp [hn, hef]
        · show f.filename :: (processLoop (pre' ++ bad :: rest)
              (acc ++ [⟨f.filename, errEntryText m, f.size⟩])).attempts = _
          rw [r3, List.filter_cons]
          simp [hn]

/-! ### Lemmas about the preprocessing pipeline on binary images -/

theorem median9_binary {l : List Nat} (h : ∀ x ∈ l, x = 0 ∨ x = 255) :
    median9 l = 0 ∨ median9 l = 255 := by
  unfold median9
  rw [List.getD_eq_getElem?_getD]
  cases hx : (List.insertionSort (· ≤ ·) l)[4]? with
  | none => left; rfl
  | some x =>
    have hmem : x ∈ List.insertionSort (· ≤ ·) l := List.getElem?_mem hx
    have hl : x ∈ l := (List.mem_insertionSort (· ≤ ·)).mp hmem
    simpa using h x hl

theorem binary_rows {g : GrayImage} (hb : isBinaryImg g = true) :
    ∀ row ∈ g, ∀ v ∈ row, v = 0 ∨ v = 255 := by
  intro row hrow v hv
  rw [isBinaryImg, List.all_eq_true] at hb
  have := hb row hrow
  rw [List.all_eq_true] at this
  have := this v hv
  simpa using this

theorem getD_mem_or_default {α : Type} (l : List α) (n : Nat) (d : α) :
    l.getD n d ∈ l ∨ l.getD n d = d := by
  rw [List.getD_eq_getElem?_getD]
  cases hx : l[n]? with
  | none => right; rfl
  | some x => left; simpa using List.getElem?_mem hx

theorem clampGet_binary {g : GrayImage} (hb : isBinaryImg g = true) (i j : Int) :
    clampGet g i j = 0 ∨ clampGet g i j = 255 := by
  have hmain : clampGet g i j =
      (g.getD (max 0 (min i ((g.length : Int) - 1))).toNat []).getD
        (max 0 (min j (((g.getD (max 0 (min i ((g.length : Int) - 1))).toNat
          []).length : Int) - 1))).toNat 0 := rfl
  rw [hmain]
  rcases getD_mem_or_default g (max 0 (min i ((g.length : Int) - 1))).toNat []
    with hrow | hempty
  · rcases getD_mem_or_default (g.getD (max 0 (min i ((g.length : Int) - 1))).toNat [])
      (max 0 (min j (((g.getD (max 0 (min i ((g.length : Int) - 1))).toNat
        []).length : Int) - 1))).toNat 0
      with hv | hd
    · exact binary_rows hb _ hrow _ hv
    · left; exact hd
  · rw [hempty]
    left
    rfl

theorem neighborhood9_binary {g : GrayImage} (hb : isBinaryImg g = true)
    (i j : Int) : ∀ x ∈ neighborhood9 g i j, x = 0 ∨ x = 255 := by
  intro x hx
  unfold neighborhood9 at hx
  simp only [List.mem_cons, List.not_mem_nil, or_false] at hx
  rcases hx with h | h | h | h | h | h | h | h | h <;>
    (rw [h]; exact clampGet_binary hb _ _)

theorem medianFilter_binary {g : GrayImage} (hb : isBinaryImg g = true) :
    isBinaryImg (medianFilterImg g) = true := by
  rw [isBinaryImg, List.all_eq_true]
  intro row hrow
  rw [List.all_eq_true]
  intro v hv
  rw [medianFilterImg, List.mem_map] at hrow
  obtain ⟨i, _, hrow⟩ := hrow
  rw [← hrow, List.mem_map] at hv
  obtain ⟨j, _, hv⟩ := hv
  rcases median9_binary (neighborhood9_binary hb (i : Int) (j : Int)) with h | h <;>
    simp [← hv, h]

theorem pointThreshold_binary_id {g : GrayImage} (hb : isBinaryImg g = true) :
    pointThreshold g = g := by
  unfold pointThreshold
  have hrows := binary_rows hb
  have h1 : ∀ row ∈ g, row.map thresholdPx = row := by
    intro row hrow
    have h2 : ∀ v ∈ row, thresholdPx v = v := by
      intro v hv
      rcases hrows row hrow v hv with h | h <;> rw [h] <;> rfl
    calc row.map thresholdPx = row.map id := List.map_congr_left h2
      _ = row := List.map_id row
  calc g.map (fun row => row.map thresholdPx) = g.map id := List.map_congr_left h1
    _ = g := List.map_id g

theorem preprocess_binary_eq_median {g : GrayImage} (hb : isBinaryImg g = true) :
    preprocess_image g = medianFilterImg g := by
  unfold preprocess_image grayscaleL
  exact pointThreshold_binary_id (medianFilter_binary hb)

/-! ### Claim theorems -/

/-- C6 counterexample: the vertical-stripe image is pure black/white,
yet running the preprocessing pipeline twice does not give the same
bitmap as running it once — the median filter erases the isolated white
stripe left by the first pass, so idempotence on binarized input fails. -/
theorem spec_c6_counterexample :
    isBinaryImg stripesImg = true ∧
      preprocess_image (preprocess_image stripesImg) ≠ preprocess_image stripesImg := by
  decide

/-- C6 (amended): the preprocessing pipeline is a pure function
(deterministic by construction); on a pure black/white input a second
pipeline pass equals one extra median-filter pass over the first
pass's output — so the pipeline is idempotent on a binarized image
exactly when that output is a fixed point of the median filter, which
is not the case in general. -/
theorem spec_c6_theorem (g : GrayImage) (hb : isBinaryImg g = true) :
    preprocess_image (preprocess_image g) = medianFilterImg (preprocess_image g) := by
  have h1 : preprocess_image g = medianFilterImg g := preprocess_binary_eq_median hb
  have h2 : isBinaryImg (preprocess_image g) = true := by
    rw [h1]; exact medianFilter_binary hb
  exact preprocess_binary_eq_median h2

/-- C6 witness: the amended theorem applied to a concrete all-black
2x2 image. -/
theorem spec_c6_witness :
    isBinaryImg ([[0, 0], [0, 0]] : GrayImage) = true ∧
      preprocess_image (preprocess_image ([[0, 0], [0, 0]] : GrayImage)) =
        medianFilterImg (preprocess_image ([[0, 0], [0, 0]] : GrayImage)) :=
  ⟨by decide, spec_c6_theorem [[0, 0], [0, 0]] (by decide)⟩

/-- C7: the measured-size check of the orchestrator rejects a file
exactly when its byte length is strictly greater than 10,485,760;
the boundary value 10,485,760 itself is accepted, and `MAX_FILE_SIZE`
is exactly 10,485,760. -/
theorem spec_c7_theorem :
    (∀ n : Nat, size_check_rejects n = true ↔ 10485760 < n) ∧
      size_check_rejects 10485760 = false ∧ MAX_FILE_SIZE = 10485760 := by
  refine ⟨fun n => ?_, by decide, by decide⟩
  simp [size_check_rejects, MAX_FILE_SIZE]

/-- C7 witness: the check at 10,485,761 and at the boundary. -/
theorem spec_c7_witness :
    size_check_rejects 10485761 = true ∧ size_check_rejects 10485760 = false :=
  ⟨(spec_c7_theorem.1 10485761).mpr (by norm_num), spec_c7_theorem.2.1⟩

/-- C10: a POST to `/download-single` whose `file_index` form value is
the non-integer string `abc` raises an uncaught `ValueError`
(HTTP 500 via the error handler) instead of returning 404 or using the
default index; the default 0 applies only when the field is absent. -/
theorem spec_c10_theorem :
    download_single (some "abc") [⟨"a.png", "hi", 2⟩] = DlResponse.exc "ValueError" ∧
      dlStatus (download_single (some "abc") [⟨"a.png", "hi", 2⟩]) = 500 ∧
      download_single (some "abc") [⟨"a.png", "hi", 2⟩] ≠ DlResponse.notFound ∧
      download_single none [⟨"a.png", "hi", 2⟩] =
        DlResponse.attachment "extracted_text_a.png.txt" "hi" := by
  decide

/-- C1 counterexample: in a 2-file batch where the first file is valid
and OCR yields `hello` and the second file has extension `txt`, the
orchestrator sets the batch-level error naming `bad.txt` but does NOT
discard the partial result of file 1: the returned `results` list is
non-empty and it IS stored in the session, contradicting the claim
that the BatchResult is empty and nothing is stored. -/
theorem spec_c1_counterexample :
    (indexPost [exGood, exBadExt]).error = some (invalidTypeMsg "bad.txt") ∧
      (indexPost [exGood, exBadExt]).results = [⟨"good.png", "hello", 4⟩] ∧
      (indexPost [exGood, exBadExt]).stored = some [⟨"good.png", "hello", 4⟩] := by
  decide

/-- C1 (amended): for every batch that passes the count ceiling, when
the loop reaches a file with a non-empty filename that fails per-file
validation — a bad extension, or a passing extension but an oversize
body — after a prefix whose non-empty-filename files all pass both
checks, the batch aborts at that file with a single batch-level error
naming it (the extension message or the size message, whichever check
failed); the results accumulated from the prefix are KEPT in the
returned BatchResult (one entry per non-empty-filename prefix file,
real text / blank placeholder / error placeholder according to its
OCR outcome); the session stores that list when it is non-empty and is
left untouched when it is empty; and no file at or after the offending
one is ever OCR-attempted. -/
theorem spec_c1_theorem (pre : List UploadFile) (bad : UploadFile)
    (rest : List UploadFile)
    (hpre : ∀ f ∈ pre, f.filename ≠ "" →
      allowed_file f.filename = true ∧ f.size ≤ MAX_FILE_SIZE)
    (hb1 : bad.filename ≠ "")
    (hb2 : allowed_file bad.filename = false ∨ MAX_FILE_SIZE < bad.size)
    (hlen : (pre ++ bad :: rest).length ≤ MAX_FILES) :
    (indexPost (pre ++ bad :: rest)).results =
        (pre.filter (fun f => f.filename ≠ "")).map entryFor ∧
      (indexPost (pre ++ bad :: rest)).error =
        some (if allowed_file bad.filename = true then oversizeMsg bad.filename
              else invalidTypeMsg bad.filename) ∧
      (indexPost (pre ++ bad :: rest)).stored =
        (if (pre.filter (fun f => f.filename ≠ "")).map entryFor = [] then none
         else some ((pre.filter (fun f => f.filename ≠ "")).map entryFor)) ∧
      (indexPost (pre ++ bad :: rest)).attempts =
        (pre.filter (fun f => f.filename ≠ "")).map (fun f => f.filename) := by
  have hcond1 : ¬ (pre ++ bad :: rest = [] ∨
      ∀ f ∈ pre ++ bad :: rest, f.filename = "") := by
    rintro (h | h)
    · rcases List.append_eq_nil.mp h with ⟨-, h2⟩
      exact List.cons_ne_nil _ _ h2
    · exact hb1 (h bad (by simp))
  have hcond2 : ¬ MAX_FILES < (pre ++ bad :: rest).length := by omega
  rw [indexPost_normal hcond1 hcond2]
  obtain ⟨r1, r2, r3⟩ := processLoop_abort pre bad rest [] hpre hb1 hb2
  dsimp only
  rw [r1, r2, r3]
  simp

/-- C1 witness: the amended theorem at a concrete 3-file batch whose
second file passes the extension check but exceeds the size ceiling —
the valid first file's entry is kept and stored, the size message
names the offending file, and the third file is never attempted. -/
theorem spec_c1_witness :
    (indexPost (c1wPre ++ c1wBad :: c1wRest)).results =
        (c1wPre.filter (fun f => f.filename ≠ "")).map entryFor ∧
      (indexPost (c1wPre ++ c1wBad :: c1wRest)).error =
        some (if allowed_file c1wBad.filename = true then oversizeMsg c1wBad.filename
              else invalidTypeMsg c1wBad.filename) ∧
      (indexPost (c1wPre ++ c1wBad :: c1wRest)).stored =
        (if (c1wPre.filter (fun f => f.filename ≠ "")).map entryFor = [] then none
         else some ((c1wPre.filter (fun f => f.filename ≠ "")).map entryFor)) ∧
      (indexPost (c1wPre ++ c1wBad :: c1wRest)).attempts =
        (c1wPre.filter (fun f => f.filename ≠ "")).map (fun f => f.filename) :=
  spec_c1_theorem c1wPre c1wBad c1wRest
    (by decide) (by decide) (by decide) (by decide)

/-- C9 counterexample: an upload whose bytes cannot be decoded
(`Image.open` raises `cannot identify image file`) is NOT surfaced via
the generic valid-image message: the batch error stays `none` (in
particular it is not `genericFailureMsg`), and the cause is shown to
the user verbatim inside the per-file result text. -/
theorem spec_c9_counterexample :
    (indexPost [exDecode]).results =
        [⟨"broken.png", "Error processing image: cannot identify image file", 7⟩] ∧
      (indexPost [exDecode]).error = none ∧
      (indexPost [exDecode]).error ≠ some genericFailureMsg ∧
      (indexPost [exDecode]).stored ≠ none := by
  decide

/-- C9 (amended): for a valid-looking upload whose image bytes fail to
decode (the OCR call raises with cause `m`), the failure is logged at
error level twice (once by the adapter, once by the orchestrator, both
messages embedding the cause), the per-file entry shown to the user is
`Error processing image: <cause>` with the cause verbatim, no
batch-level error is set (the generic valid-image message of the outer
handler is not produced), and the entry is stored in the session. -/
theorem spec_c9_theorem (f : UploadFile) (m : String)
    (h1 : f.filename ≠ "") (h2 : allowed_file f.filename = true)
    (h3 : f.size ≤ MAX_FILE_SIZE) (h4 : f.ocr = .err m) :
    (indexPost [f]).results = [⟨f.filename, errEntryText m, f.size⟩] ∧
      (indexPost [f]).error = none ∧
      (indexPost [f]).logs =
        [⟨.error, "OCR processing failed: " ++ m⟩,
         ⟨.error, "Error processing " ++ f.filename ++ ": " ++ m⟩] ∧
      (indexPost [f]).stored = some [⟨f.filename, errEntryText m, f.size⟩] := by
  have hsz : size_check_rejects f.size = false := by
    simp [size_check_rejects]; omega
  have hcond1 : ¬ (([f] : List UploadFile) = [] ∨
      ∀ g ∈ ([f] : List UploadFile), g.filename = "") := by
    rintro (h | h)
    · exact List.cons_ne_nil _ _ h
    · exact h1 (h f (List.mem_cons_self _ _))
  have hcond2 : ¬ MAX_FILES < ([f] : List UploadFile).length := by
    simp [MAX_FILES]
  rw [indexPost_normal hcond1 hcond2]
  rw [processLoop_err [] [] h1 h2 hsz h4]
  simp only [List.nil_append]
  simp [processLoop]

/-- C9 witness: the amended theorem at a concrete undecodable file. -/
theorem spec_c9_witness :
    (indexPost [⟨"d.png", 4, .err "bad header"⟩]).results =
        [⟨"d.png", errEntryText "bad header", 4⟩] ∧
      (indexPost [⟨"d.png", 4, .err "bad header"⟩]).error = none ∧
      (indexPost [⟨"d.png", 4, .err "bad header"⟩]).logs =
        [⟨.error, "OCR processing failed: " ++ "bad header"⟩,
         ⟨.error, "Error processing " ++ "d.png" ++ ": " ++ "bad header"⟩] ∧
      (indexPost [⟨"d.png", 4, .err "bad header"⟩]).stored =
        some [⟨"d.png", errEntryText "bad header", 4⟩] :=
  spec_c9_theorem ⟨"d.png", 4, .err "bad header"⟩ "bad header"
    (by decide) (by decide) (by decide) rfl

/-- C2 counterexample: a valid 1-file batch whose image yields only
whitespace (blank) does NOT produce a batch-level error and DOES store
a BatchResult: the file gets a per-file placeholder entry, so the
result list is non-empty, the error stays `none`, and the list is
written to the session — contradicting the claim. -/
theorem spec_c2_counterexample :
    (indexPost [exBlank]).error = none ∧
      (indexPost [exBlank]).results = [⟨"blank.png", noTextMsg, 5⟩] ∧
      (indexPost [exBlank]).stored = some [⟨"blank.png", noTextMsg, 5⟩] := by
  decide

/-- C2 (amended): a valid, non-empty batch in which every image yields
empty trimmed OCR text produces one `No text could be extracted from
this image.` placeholder entry per file, NO batch-level error, and the
BatchResult IS stored in the session (the batch-level
"nothing extracted" error of app.py line 381 is unreachable once any
file has a non-empty filename, because every such file appends an
entry). -/
theorem spec_c2_theorem (files : List UploadFile) (hne : files ≠ [])
    (hlen : files.length ≤ MAX_FILES)
    (h : ∀ f ∈ files, validFile f ∧ blankOk f = true) :
    (indexPost files).results =
        files.map (fun f => (⟨f.filename, noTextMsg, f.size⟩ : ResultEntry)) ∧
      (indexPost files).error = none ∧
      (indexPost files).stored =
        some (files.map (fun f => (⟨f.filename, noTextMsg, f.size⟩ : ResultEntry))) := by
  have hcond1 : ¬ (files = [] ∨ ∀ f ∈ files, f.filename = "") := by
    rintro (h1 | h1)
    · exact hne h1
    · cases files with
      | nil => exact hne rfl
      | cons a t =>
          exact ((h a (List.mem_cons_self a t)).1).1 (h1 a (List.mem_cons_self a t))
  have hcond2 : ¬ MAX_FILES < files.length := by omega
  rw [indexPost_normal hcond1 hcond2]
  obtain ⟨r1, r2, r3⟩ := processLoop_all_blank files [] h
  have hmne : files.map (fun f => (⟨f.filename, noTextMsg, f.size⟩ : ResultEntry)) ≠ [] := by
    cases files with
    | nil => exact absurd rfl hne
    | cons a t => simp
  dsimp only
  rw [r1, r2]
  simp [hmne]

/-- C2 witness: the amended theorem at a concrete blank 1-file batch. -/
theorem spec_c2_witness :
    (indexPost [⟨"w.png", 1, .ok " "⟩]).results =
        ([⟨"w.png", 1, .ok " "⟩] : List UploadFile).map
          (fun f => (⟨f.filename, noTextMsg, f.size⟩ : ResultEntry)) ∧
      (indexPost [⟨"w.png", 1, .ok " "⟩]).error = none ∧
      (indexPost [⟨"w.png", 1, .ok " "⟩]).stored =
        some (([⟨"w.png", 1, .ok " "⟩] : List UploadFile).map
          (fun f => (⟨f.filename, noTextMsg, f.size⟩ : ResultEntry))) :=
  spec_c2_theorem [⟨"w.png", 1, .ok " "⟩] (by decide) (by decide)
    (by decide)

/-- C3: in a valid 3-file batch where recognition fails for file 2
with cause `m` but succeeds with non-empty text for files 1 and 3, the
BatchResult has exactly the 3 entries in submission order — file 2
carrying the placeholder `Error processing image: <cause>`, files 1
and 3 carrying their stripped recognized text — the batch-level error
is `none`, the HTTP status of the response is 200, and the 3-entry
list is stored in the session: a per-file recognition failure never
aborts the batch. -/
theorem spec_c3_theorem (f1 f2 f3 : UploadFile) (t1 t3 m : String)
    (h11 : f1.filename ≠ "") (h12 : allowed_file f1.filename = true)
    (h13 : f1.size ≤ MAX_FILE_SIZE) (h14 : f1.ocr = .ok t1)
    (h15 : pyStrip t1 ≠ "")
    (h21 : f2.filename ≠ "") (h22 : allowed_file f2.filename = true)
    (h23 : f2.size ≤ MAX_FILE_SIZE) (h24 : f2.ocr = .err m)
    (h31 : f3.filename ≠ "") (h32 : allowed_file f3.filename = true)
    (h33 : f3.size ≤ MAX_FILE_SIZE) (h34 : f3.ocr = .ok t3)
    (h35 : pyStrip t3 ≠ "") :
    (indexPost [f1, f2, f3]).results =
        [⟨f1.filename, pyStrip t1, f1.size⟩,
         ⟨f2.filename, errEntryText m, f2.size⟩,
         ⟨f3.filename, pyStrip t3, f3.size⟩] ∧
      (indexPost [f1, f2, f3]).error = none ∧
      (indexPost [f1, f2, f3]).status = 200 ∧
      (indexPost [f1, f2, f3]).stored =
        some [⟨f1.filename, pyStrip t1, f1.size⟩,
              ⟨f2.filename, errEntryText m, f2.size⟩,
              ⟨f3.filename, pyStrip t3, f3.size⟩] := by
  have hs1 : size_check_rejects f1.size = false := by
    simp [size_check_rejects]; omega
  have hs2 : size_check_rejects f2.size = false := by
    simp [size_check_rejects]; omega
  have hs3 : size_check_rejects f3.size = false := by
    simp [size_check_rejects]; omega
  have hcond1 : ¬ (([f1, f2, f3] : List UploadFile) = [] ∨
      ∀ f ∈ ([f1, f2, f3] : List UploadFile), f.filename = "") := by
    rintro (h | h)
    · exact List.cons_ne_nil _ _ h
    · exact h11 (h f1 (List.mem_cons_self _ _))
  have hcond2 : ¬ MAX_FILES < ([f1, f2, f3] : List UploadFile).length := by
    simp [MAX_FILES]
  rw [indexPost_normal hcond1 hcond2]
  rw [processLoop_ok_text [f2, f3] [] h11 h12 hs1 h14 h15]
  simp only [List.nil_append]
  rw [processLoop_err [f3] [⟨f1.filename, pyStrip t1, f1.size⟩] h21 h22 hs2 h24]
  simp only [List.singleton_append]
  rw [processLoop_ok_text []
    [⟨f1.filename, pyStrip t1, f1.size⟩, ⟨f2.filename, errEntryText m, f2.size⟩]
    h31 h32 hs3 h34 h35]
  simp [processLoop]

/-- C3 witness: the theorem at a concrete 3-file batch. -/
theorem spec_c3_witness :
    (indexPost [⟨"one.png", 1, .ok "one"⟩, ⟨"two.png", 2, .err "engine crashed"⟩,
        ⟨"three.png", 3, .ok "three"⟩]).results =
        [⟨"one.png", pyStrip "one", 1⟩,
         ⟨"two.png", errEntryText "engine crashed", 2⟩,
         ⟨"three.png", pyStrip "three", 3⟩] ∧
      (indexPost [⟨"one.png", 1, .ok "one"⟩, ⟨"two.png", 2, .err "engine crashed"⟩,
        ⟨"three.png", 3, .ok "three"⟩]).error = none ∧
      (indexPost [⟨"one.png", 1, .ok "one"⟩, ⟨"two.png", 2, .err "engine crashed"⟩,
        ⟨"three.png", 3, .ok "three"⟩]).status = 200 ∧
      (indexPost [⟨"one.png", 1, .ok "one"⟩, ⟨"two.png", 2, .err "engine crashed"⟩,
        ⟨"three.png", 3, .ok "three"⟩]).stored =
        some [⟨"one.png", pyStrip "one", 1⟩,
              ⟨"two.png", errEntryText "engine crashed", 2⟩,
              ⟨"three.png", pyStrip "three", 3⟩] :=
  spec_c3_theorem ⟨"one.png", 1, .ok "one"⟩ ⟨"two.png", 2, .err "engine crashed"⟩
    ⟨"three.png", 3, .ok "three"⟩ "one" "three" "engine crashed"
    (by decide) (by decide) (by decide) rfl (by decide)
    (by decide) (by decide) (by decide) rfl
    (by decide) (by decide) (by decide) rfl (by decide)

/-- C5 counterexample: a stored BatchResult whose (only) entry is the
error placeholder for a cause with a trailing space — the entry text
`Error processing image: boom ` is not trimmed, contradicting the
claimed invariant for error placeholder entries. -/
theorem spec_c5_counterexample :
    (indexPost [exTrailWS]).stored =
        some [⟨"ws.png", "Error processing image: boom ", 3⟩] ∧
      pyStrip "Error processing image: boom " ≠ "Error processing image: boom " := by
  decide

/-- C5 (amended): every entry of a produced BatchResult has trimmed
text — recognized text is stripped by the adapter and the blank
placeholder is a fixed trimmed string — PROVIDED every recognition
failure's cause is non-empty without trailing whitespace; the error
placeholder embeds the cause verbatim, so a cause with trailing
whitespace (see the counterexample) breaks the invariant. -/
theorem spec_c5_theorem (files : List UploadFile)
    (h : ∀ f ∈ files, errCauseOk f = true) :
    ∀ e ∈ (indexPost files).results, pyStrip e.text = e.text := by
  unfold indexPost
  by_cases h1 : files = [] ∨ ∀ f ∈ files, f.filename = ""
  · rw [if_pos h1]; intro e he; simp at he
  · rw [if_neg h1]
    by_cases h2 : MAX_FILES < files.length
    · rw [if_pos h2]; intro e he; simp at he
    · rw [if_neg h2]
      show ∀ e ∈ (processLoop files []).results, pyStrip e.text = e.text
      exact processLoop_trimmed files [] h (by intro e he; simp at he)

/-- C5 witness: the amended theorem at a concrete 2-file batch with one
well-behaved recognition failure and one success with surrounding
whitespace. -/
theorem spec_c5_witness :
    ((indexPost [⟨"p.png", 1, .err "fail"⟩, ⟨"q.png", 2, .ok " hi "⟩]).results.all
      (fun e => pyStrip e.text == e.text)) = true := by
  have h := spec_c5_theorem
    [⟨"p.png", 1, .err "fail"⟩, ⟨"q.png", 2, .ok " hi "⟩] (by decide)
  rw [List.all_eq_true]
  intro e he
  exact beq_iff_eq.mpr (h e he)

/-- C8: a batch of more than `MAX_FILES` (10) submitted files is
rejected with a batch-level error before any per-file work: the result
list is empty and no OCR attempt is made; and a batch of exactly 10
files that all pass per-file validation is fully attempted — every
file is OCR-invoked, 10 entries are produced and no error is set. -/
theorem spec_c8_theorem (files : List UploadFile) :
    (MAX_FILES < files.length →
      (indexPost files).results = [] ∧ (indexPost files).error.isSome = true ∧
        (indexPost files).attempts = []) ∧
    (files.length = MAX_FILES → (∀ f ∈ files, validFile f) →
      (indexPost files).attempts = files.map (fun f => f.filename) ∧
        (indexPost files).results.length = MAX_FILES ∧
        (indexPost files).error = none) := by
  constructor
  · intro hgt
    unfold indexPost
    by_cases h1 : files = [] ∨ ∀ f ∈ files, f.filename = ""
    · rw [if_pos h1]; exact ⟨rfl, rfl, rfl⟩
    · rw [if_neg h1, if_pos hgt]; exact ⟨rfl, rfl, rfl⟩
  · intro hlen hvalid
    have hcond1 : ¬ (files = [] ∨ ∀ f ∈ files, f.filename = "") := by
      rintro (rfl | hall)
      · simp [MAX_FILES] at hlen
      · cases files with
        | nil => simp [MAX_FILES] at hlen
        | cons a t =>
            exact ((hvalid a (List.mem_cons_self a t)).1)
              (hall a (List.mem_cons_self a t))
    have hcond2 : ¬ MAX_FILES < files.length := by omega
    rw [indexPost_normal hcond1 hcond2]
    obtain ⟨r1, r2, r3⟩ := processLoop_all_valid files [] hvalid
    have hres : (processLoop files []).results ≠ [] := by
      intro h0
      rw [h0] at r1
      simp [MAX_FILES] at r1 hlen
      omega
    dsimp only
    refine ⟨r3, ?_, ?_⟩
    · rw [r1]; simpa using hlen
    · rw [if_neg (fun hc => hres hc.2)]
      exact r2

/-- C8 witness: the theorem at a concrete batch of 11 identical valid
files (rejected up front) and at a concrete batch of 10 (fully
attempted). -/
theorem spec_c8_witness :
    ((indexPost (List.replicate 11 (⟨"a.png", 1, .ok "t"⟩ : UploadFile))).results = [] ∧
      (indexPost (List.replicate 11 (⟨"a.png", 1, .ok "t"⟩ : UploadFile))).error.isSome
        = true ∧
      (indexPost (List.replicate 11 (⟨"a.png", 1, .ok "t"⟩ : UploadFile))).attempts
        = []) ∧
    ((indexPost (List.replicate 10 (⟨"a.png", 1, .ok "t"⟩ : UploadFile))).attempts =
        (List.replicate 10 (⟨"a.png", 1, .ok "t"⟩ : UploadFile)).map
          (fun f => f.filename) ∧
      (indexPost (List.replicate 10 (⟨"a.png", 1, .ok "t"⟩ : UploadFile))).results.length
        = MAX_FILES ∧
      (indexPost (List.replicate 10 (⟨"a.png", 1, .ok "t"⟩ : UploadFile))).error
        = none) :=
  ⟨(spec_c8_theorem (List.replicate 11 ⟨"a.png", 1, .ok "t"⟩)).1 (by decide),
   (spec_c8_theorem (List.replicate 10 ⟨"a.png", 1, .ok "t"⟩)).2 (by decide)
     (by decide)⟩

/-- C4 counterexample: with 3 stored results, a POST to
`/download-single` with the integer form value `-4` — an index that is
out of range of the stored list — does not return 404: it raises an
uncaught `IndexError` (surfaced as HTTP 500), refuting the claimed
"404 if and only if no batch or out-of-range index". -/
theorem spec_c4_counterexample :
    download_single (some "-4") exResults3 = DlResponse.exc "IndexError" ∧
      download_single (some "-4") exResults3 ≠ DlResponse.notFound ∧
      dlStatus (download_single (some "-4") exResults3) = 500 := by
  decide

/-- C4 (amended): after parsing, the handler returns 404 exactly when
no results are stored or the index is at least the length of the
stored list; an index `i` with `0 ≤ i < length` returns entry `i`'s
text as the attachment `extracted_text_<filename>.txt`; a negative
index with `-length ≤ i` is NOT rejected — Python indexing returns the
entry `i + length` from the end as an attachment; and an index below
`-length` raises an uncaught `IndexError` (HTTP 500). -/
theorem spec_c4_theorem (results : List ResultEntry) (i : Int) :
    (download_single_core i results = DlResponse.notFound ↔
        results = [] ∨ (results.length : Int) ≤ i) ∧
      (∀ r : ResultEntry, 0 ≤ i → results.get? i.toNat = some r →
        download_single_core i results =
          DlResponse.attachment ("extracted_text_" ++ r.filename ++ ".txt") r.text) ∧
      (∀ r : ResultEntry, i < 0 → 0 ≤ i + (results.length : Int) →
        results.get? (i + (results.length : Int)).toNat = some r →
        download_single_core i results =
          DlResponse.attachment ("extracted_text_" ++ r.filename ++ ".txt") r.text) ∧
      (i + (results.length : Int) < 0 → results ≠ [] →
        download_single_core i results = DlResponse.exc "IndexError") := by
  refine ⟨⟨?_, ?_⟩, ?_, ?_, ?_⟩
  · intro hnf
    by_contra hor
    have hne : download_single_core i results ≠ DlResponse.notFound := by
      cases hpg : pyListGet results i <;>
        simp [download_single_core, if_neg hor, hpg]
    exact hne hnf
  · intro hor
    unfold download_single_core
    rw [if_pos hor]
  · intro r hi hget
    have hguard : ¬ (results = [] ∨ (results.length : Int) ≤ i) := by
      rintro (rfl | hle)
      · simp at hget
      · have hlen : results.length ≤ i.toNat := by omega
        rw [List.get?_eq_none.mpr hlen] at hget
        cases hget
    unfold download_single_core
    rw [if_neg hguard]
    rw [List.get?_eq_getElem?] at hget
    simp [pyListGet, hi, hget]
  · intro r hi h0 hget
    have hguard : ¬ (results = [] ∨ (results.length : Int) ≤ i) := by
      rintro (rfl | hle)
      · simp at hget
      · omega
    unfold download_single_core
    rw [if_neg hguard]
    have hni : ¬ (0 ≤ i) := by omega
    rw [List.get?_eq_getElem?] at hget
    simp [pyListGet, hni, h0, hget]
  · intro hneg hne
    have hguard : ¬ (results = [] ∨ (results.length : Int) ≤ i) := by
      rintro (rfl | hle)
      · exact hne rfl
      · omega
    unfold download_single_core
    rw [if_neg hguard]
    have hni : ¬ (0 ≤ i) := by omega
    have hn0 : ¬ (0 ≤ i + (results.length : Int)) := by omega
    simp [pyListGet, hni, hn0]

/-- C4 witness: the amended theorem at the concrete 3-entry store —
index 1 yields entry 2's text as an attachment, index 5 yields 404. -/
theorem spec_c4_witness :
    download_single_core 1 exResults3 =
        DlResponse.attachment ("extracted_text_" ++ "b.png" ++ ".txt") "t2" ∧
      download_single_core 5 exResults3 = DlResponse.notFound :=
  ⟨(spec_c4_theorem exResults3 1).2.1 ⟨"b.png", "t2", 2⟩ (by decide) (by decide),
   (spec_c4_theorem exResults3 5).1.mpr (Or.inr (by decide))⟩
